import Mathlib

/-!
Shallow embedding of the relationship & memory engine of the
Hackaton_Minecraft_Python repository (src/enhanced_memory_schema.py and
src/app.py), together with verification of its specified properties.

Python `dict[str, V]` is modelled as an insertion-ordered association list;
pydantic `Literal[...]` fields become inductive kinds, with a raw-payload
validation step for the ingestion boundary; `float` damage is modelled as
`Rat`; timestamps (`datetime.now().isoformat()`) are opaque strings passed
in as a `now` parameter.
-/

/-- Insertion-ordered dictionary lookup (`d[k]` / `k in d`). -/
def dictLookup {β : Type} : List (String × β) → String → Option β
  | [], _ => none
  | (k, v) :: rest, key => if k = key then some v else dictLookup rest key

/-- Insertion-ordered dictionary write `d[k] = v`: replace in place if the
key is present, else append at the end (Python 3.7+ dict semantics). -/
def dictSet {β : Type} : List (String × β) → String → β → List (String × β)
  | [], key, val => [(key, val)]
  | (k, v) :: rest, key, val =>
      if k = key then (key, val) :: rest else (k, v) :: dictSet rest key val

/-- Dictionary deletion `del d[k]`. -/
def dictRemove {β : Type} : List (String × β) → String → List (String × β)
  | [], _ => []
  | (k, v) :: rest, key =>
      if k = key then dictRemove rest key else (k, v) :: dictRemove rest key

/-- Python slice `l[-50:]`: the last 50 elements (all of them when fewer). -/
def keepLast50 {α : Type} (l : List α) : List α :=
  l.drop (l.length - 50)

/-- `max lo (min hi x)`, the clamping pattern of the source
(`max(-100, min(100, rel.trust))` etc.). -/
def clampInt (lo hi x : Int) : Int :=
  max lo (min hi x)

/-- `Literal["attacked_by", "attacked", "witnessed_death"]`. -/
inductive CombatKind
  | attacked_by
  | attacked
  | witnessed_death
deriving DecidableEq, Repr

/-- `Literal["chat", "gift_received", "gift_given", "helped", "ignored"]`. -/
inductive SocialKind
  | chat
  | gift_received
  | gift_given
  | helped
  | ignored
deriving DecidableEq, Repr

/-- `Literal["block_broken", "block_placed", "explosion", "mob_spawned"]`. -/
inductive EnvKind
  | block_broken
  | block_placed
  | explosion
  | mob_spawned
deriving DecidableEq, Repr

/-- `class CombatEvent(BaseModel)` of src/enhanced_memory_schema.py. -/
structure CombatEvent where
  event_type : CombatKind
  entity_name : String
  entity_type : String
  damage : Option Rat
  weapon : Option String
  location : Option String
  timestamp : String
deriving DecidableEq, Repr

/-- `class SocialEvent(BaseModel)`. -/
structure SocialEvent where
  event_type : SocialKind
  entity_name : String
  message : Option String
  item : Option String
  timestamp : String
deriving DecidableEq, Repr

/-- `class EnvironmentalEvent(BaseModel)`. -/
structure EnvironmentalEvent where
  event_type : EnvKind
  description : String
  location : Option String
  timestamp : String
deriving DecidableEq, Repr

/-- `class Relationship(BaseModel)`: the per-(agent, counterpart) ledger.
pydantic declares `trust` with `ge=-100, le=100`, `fear` and `affection`
with `ge=0, le=100`; those bounds are re-checked on (re)construction, which
the `parse` functions below model. -/
structure Relationship where
  entity_name : String
  entity_type : String
  trust : Int
  fear : Int
  affection : Int
  times_attacked_by : Nat
  times_attacked : Nat
  total_damage_received : Rat
  total_damage_dealt : Rat
  gifts_received : Nat
  gifts_given : Nat
  times_helped : Nat
  last_interaction : String
deriving DecidableEq, Repr

/-- `Relationship(entity_name=..., entity_type=...)` with all other fields
at their declared defaults (`datetime.now()` modelled by `now`). -/
def Relationship.new (entity_name entity_type now : String) : Relationship where
  entity_name := entity_name
  entity_type := entity_type
  trust := 0
  fear := 0
  affection := 0
  times_attacked_by := 0
  times_attacked := 0
  total_damage_received := 0
  total_damage_dealt := 0
  gifts_received := 0
  gifts_given := 0
  times_helped := 0
  last_interaction := now

/-- `class EnhancedMemoryStore(BaseModel)`: one agent's complete memory. -/
structure EnhancedMemoryStore where
  npc_id : String
  combat_events : List CombatEvent
  social_events : List SocialEvent
  environmental_events : List EnvironmentalEvent
  relationships : List (String × Relationship)
  current_threat : Option String
  current_ally : Option String
  current_goal : String
  total_interactions : Nat
  total_combat_events : Nat
  creation_time : String
deriving DecidableEq, Repr

/-- `EnhancedMemoryStore(npc_id=npc_id)` with every other field defaulted. -/
def EnhancedMemoryStore.new (npc_id now : String) : EnhancedMemoryStore where
  npc_id := npc_id
  combat_events := []
  social_events := []
  environmental_events := []
  relationships := []
  current_threat := none
  current_ally := none
  current_goal := "idle"
  total_interactions := 0
  total_combat_events := 0
  creation_time := now

/-- `EnhancedMemoryStore.add_combat_event`: append (keeping the last 50),
bump `total_combat_events`, lazily create the counterpart's ledger, apply
the per-kind deltas — with the `times_attacked_by >= 3` escalation forcing
`trust = min(trust, -40)` and setting `current_threat` — then clamp the
three scores and stamp `last_interaction`. -/
def EnhancedMemoryStore.add_combat_event
    (s : EnhancedMemoryStore) (event : CombatEvent) (now : String) :
    EnhancedMemoryStore :=
  let combat_events := keepLast50 (s.combat_events ++ [event])
  let total_combat_events := s.total_combat_events + 1
  let rel :=
    match dictLookup s.relationships event.entity_name with
    | some r => r
    | none => Relationship.new event.entity_name event.entity_type now
  let step :=
    match event.event_type with
    | CombatKind.attacked_by =>
        let rel := { rel with
          times_attacked_by := rel.times_attacked_by + 1
          total_damage_received := rel.total_damage_received + event.damage.getD 0
          trust := rel.trust - 15
          fear := rel.fear + 10
          affection := rel.affection - 5 }
        if rel.times_attacked_by ≥ 3 then
          ({ rel with trust := min rel.trust (-40) }, some event.entity_name)
        else
          (rel, s.current_threat)
    | CombatKind.attacked =>
        ({ rel with
          times_attacked := rel.times_attacked + 1
          total_damage_dealt := rel.total_damage_dealt + event.damage.getD 0 },
         s.current_threat)
    | CombatKind.witnessed_death =>
        ({ rel with fear := rel.fear + 5 }, s.current_threat)
  let rel := step.1
  let current_threat := step.2
  let rel := { rel with
    trust := clampInt (-100) 100 rel.trust
    fear := clampInt 0 100 rel.fear
    affection := clampInt 0 100 rel.affection
    last_interaction := now }
  { s with
    combat_events := combat_events
    total_combat_events := total_combat_events
    relationships := dictSet s.relationships event.entity_name rel
    current_threat := current_threat }

/-- `EnhancedMemoryStore.add_social_event`: append (keeping the last 50),
bump `total_interactions`, lazily create the counterpart's ledger (with
`entity_type="player"`), apply the per-kind deltas, clamp, stamp. -/
def EnhancedMemoryStore.add_social_event
    (s : EnhancedMemoryStore) (event : SocialEvent) (now : String) :
    EnhancedMemoryStore :=
  let social_events := keepLast50 (s.social_events ++ [event])
  let total_interactions := s.total_interactions + 1
  let rel :=
    match dictLookup s.relationships event.entity_name with
    | some r => r
    | none => Relationship.new event.entity_name "player" now
  let rel :=
    match event.event_type with
    | SocialKind.gift_received =>
        { rel with
          gifts_received := rel.gifts_received + 1
          trust := rel.trust + 10
          affection := rel.affection + 15
          fear := max 0 (rel.fear - 5) }
    | SocialKind.gift_given =>
        { rel with gifts_given := rel.gifts_given + 1 }
    | SocialKind.helped =>
        { rel with
          times_helped := rel.times_helped + 1
          trust := rel.trust + 5
          affection := rel.affection + 5 }
    | SocialKind.chat => rel
    | SocialKind.ignored => rel
  let rel := { rel with
    trust := clampInt (-100) 100 rel.trust
    fear := clampInt 0 100 rel.fear
    affection := clampInt 0 100 rel.affection
    last_interaction := now }
  { s with
    social_events := social_events
    total_interactions := total_interactions
    relationships := dictSet s.relationships event.entity_name rel }

/-- `EnhancedMemoryStore.should_be_aggressive`. -/
def EnhancedMemoryStore.should_be_aggressive
    (s : EnhancedMemoryStore) (entity_name : String) : Bool :=
  match dictLookup s.relationships entity_name with
  | none => false
  | some rel =>
      decide (rel.trust < -30) && decide (rel.fear < 70) &&
        decide (rel.times_attacked_by ≥ 2)

/-- One recorded game event, as dispatched by `record_event` in src/app.py
(`event_type == "combat" | "social" | "environmental"`). -/
inductive GameEvent
  | combat (e : CombatEvent)
  | social (e : SocialEvent)
  | environmental (e : EnvironmentalEvent)
deriving DecidableEq, Repr

/-- The per-event mutation `record_event` performs on an agent's store:
combat and social events go through the store's add methods; environmental
events are appended and truncated to the last 50 inline (src/app.py
lines 113-115). -/
def applyEvent (s : EnhancedMemoryStore) (g : GameEvent) (now : String) :
    EnhancedMemoryStore :=
  match g with
  | GameEvent.combat e => s.add_combat_event e now
  | GameEvent.social e => s.add_social_event e now
  | GameEvent.environmental e =>
      { s with environmental_events := keepLast50 (s.environmental_events ++ [e]) }

/-- Fold a whole sequence of recorded events (each with its timestamp) over
a store. -/
def applyEvents (s : EnhancedMemoryStore) (l : List (GameEvent × String)) :
    EnhancedMemoryStore :=
  l.foldl (fun acc p => applyEvent acc p.1 p.2) s

/-- Result of the relationship query `get_relationship` in src/app.py:
either the explicit "unknown / no prior interactions" answer or the stored
ledger (from which the endpoint renders its snapshot). -/
inductive RelQueryResult
  | unknown
  | known (rel : Relationship)
deriving DecidableEq, Repr

/-- `get_relationship` (src/app.py lines 158-190), reduced to its data
content: "unknown" when the counterpart has no ledger, else the ledger. -/
def get_relationship (s : EnhancedMemoryStore) (entity : String) :
    RelQueryResult :=
  match dictLookup s.relationships entity with
  | none => RelQueryResult.unknown
  | some rel => RelQueryResult.known rel

/-! ## Ingestion boundary: raw payloads and pydantic validation

`record_event` builds `CombatEvent(**event_data)` from the raw JSON
payload; pydantic accepts it iff `event_type` is one of the declared
literals. No constraint is declared on `damage` (its annotation is plain
`Optional[float]`), so any real value, negative included, passes. -/

/-- String form of each combat literal. -/
def combatKindString : CombatKind → String
  | CombatKind.attacked_by => "attacked_by"
  | CombatKind.attacked => "attacked"
  | CombatKind.witnessed_death => "witnessed_death"

/-- Inverse of `combatKindString`: pydantic's `Literal` check. -/
def combatKindOfString (s : String) : Option CombatKind :=
  if s = "attacked_by" then some CombatKind.attacked_by
  else if s = "attacked" then some CombatKind.attacked
  else if s = "witnessed_death" then some CombatKind.witnessed_death
  else none

/-- String form of each social literal. -/
def socialKindString : SocialKind → String
  | SocialKind.chat => "chat"
  | SocialKind.gift_received => "gift_received"
  | SocialKind.gift_given => "gift_given"
  | SocialKind.helped => "helped"
  | SocialKind.ignored => "ignored"

/-- Inverse of `socialKindString`. -/
def socialKindOfString (s : String) : Option SocialKind :=
  if s = "chat" then some SocialKind.chat
  else if s = "gift_received" then some SocialKind.gift_received
  else if s = "gift_given" then some SocialKind.gift_given
  else if s = "helped" then some SocialKind.helped
  else if s = "ignored" then some SocialKind.ignored
  else none

/-- String form of each environmental literal. -/
def envKindString : EnvKind → String
  | EnvKind.block_broken => "block_broken"
  | EnvKind.block_placed => "block_placed"
  | EnvKind.explosion => "explosion"
  | EnvKind.mob_spawned => "mob_spawned"

/-- Inverse of `envKindString`. -/
def envKindOfString (s : String) : Option EnvKind :=
  if s = "block_broken" then some EnvKind.block_broken
  else if s = "block_placed" then some EnvKind.block_placed
  else if s = "explosion" then some EnvKind.explosion
  else if s = "mob_spawned" then some EnvKind.mob_spawned
  else none

/-- Raw combat payload as received by `record_event` before
`CombatEvent(**event_data)` validation. -/
structure RawCombatPayload where
  event_type : String
  entity_name : String
  entity_type : String
  damage : Option Rat
  weapon : Option String
  location : Option String
  timestamp : String
deriving DecidableEq, Repr

/-- `CombatEvent(**event_data)`: succeeds iff `event_type` is one of the
three declared literals; `damage` is NOT range-checked (no `ge=0` in the
source model). -/
def RawCombatPayload.validate (p : RawCombatPayload) : Option CombatEvent :=
  match combatKindOfString p.event_type with
  | none => none
  | some k =>
      some { event_type := k, entity_name := p.entity_name,
             entity_type := p.entity_type, damage := p.damage,
             weapon := p.weapon, location := p.location,
             timestamp := p.timestamp }

/-! ## Persistence: `model_dump` and reconstruction

`save_enhanced_memory` writes `{npc_id: memory.model_dump()}` as JSON;
`load_enhanced_memory` rebuilds `EnhancedMemoryStore(**memory_data)`,
re-running pydantic validation: literal kinds become plain strings on disk
and are re-checked on load, and the ledger's `ge`/`le` bounds on `trust`,
`fear`, `affection` are re-checked on load. -/

/-- Serialized form of a `CombatEvent` (kinds as strings). -/
structure CombatEventDump where
  event_type : String
  entity_name : String
  entity_type : String
  damage : Option Rat
  weapon : Option String
  location : Option String
  timestamp : String
deriving DecidableEq, Repr

/-- Serialized form of a `SocialEvent`. -/
structure SocialEventDump where
  event_type : String
  entity_name : String
  message : Option String
  item : Option String
  timestamp : String
deriving DecidableEq, Repr

/-- Serialized form of an `EnvironmentalEvent`. -/
structure EnvironmentalEventDump where
  event_type : String
  description : String
  location : Option String
  timestamp : String
deriving DecidableEq, Repr

/-- Serialized form of an `EnhancedMemoryStore` (`model_dump()`). -/
structure StoreDump where
  npc_id : String
  combat_events : List CombatEventDump
  social_events : List SocialEventDump
  environmental_events : List EnvironmentalEventDump
  relationships : List (String × Relationship)
  current_threat : Option String
  current_ally : Option String
  current_goal : String
  total_interactions : Nat
  total_combat_events : Nat
  creation_time : String
deriving DecidableEq, Repr

/-- `model_dump` of a combat event. -/
def CombatEvent.dump (e : CombatEvent) : CombatEventDump where
  event_type := combatKindString e.event_type
  entity_name := e.entity_name
  entity_type := e.entity_type
  damage := e.damage
  weapon := e.weapon
  location := e.location
  timestamp := e.timestamp

/-- `CombatEvent(**d)` on load: re-validates the literal. -/
def CombatEventDump.parse (d : CombatEventDump) : Option CombatEvent :=
  match combatKindOfString d.event_type with
  | none => none
  | some k =>
      some { event_type := k, entity_name := d.entity_name,
             entity_type := d.entity_type, damage := d.damage,
             weapon := d.weapon, location := d.location,
             timestamp := d.timestamp }

/-- `model_dump` of a social event. -/
def SocialEvent.dump (e : SocialEvent) : SocialEventDump where
  event_type := socialKindString e.event_type
  entity_name := e.entity_name
  message := e.message
  item := e.item
  timestamp := e.timestamp

/-- `SocialEvent(**d)` on load. -/
def SocialEventDump.parse (d : SocialEventDump) : Option SocialEvent :=
  match socialKindOfString d.event_type with
  | none => none
  | some k =>
      some { event_type := k, entity_name := d.entity_name,
             message := d.message, item := d.item, timestamp := d.timestamp }

/-- `model_dump` of an environmental event. -/
def EnvironmentalEvent.dump (e : EnvironmentalEvent) : EnvironmentalEventDump where
  event_type := envKindString e.event_type
  description := e.description
  location := e.location
  timestamp := e.timestamp

/-- `EnvironmentalEvent(**d)` on load. -/
def EnvironmentalEventDump.parse (d : EnvironmentalEventDump) :
    Option EnvironmentalEvent :=
  match envKindOfString d.event_type with
  | none => none
  | some k =>
      some { event_type := k, description := d.description,
             location := d.location, timestamp := d.timestamp }

/-- Rebuild a list field element-wise, failing on the first element whose
validation fails (pydantic list-of-models semantics). -/
def optionMapList {α β : Type} (f : α → Option β) : List α → Option (List β)
  | [] => some []
  | a :: l =>
      match f a with
      | none => none
      | some b =>
          match optionMapList f l with
          | none => none
          | some bl => some (b :: bl)

/-- `Relationship(**d)` on load: pydantic re-checks the declared bounds
`trust ∈ [-100,100]`, `fear ∈ [0,100]`, `affection ∈ [0,100]`. -/
def Relationship.revalidate (r : Relationship) : Option Relationship :=
  if -100 ≤ r.trust ∧ r.trust ≤ 100 ∧ 0 ≤ r.fear ∧ r.fear ≤ 100 ∧
      0 ≤ r.affection ∧ r.affection ≤ 100 then
    some r
  else
    none

/-- `memory.model_dump()`. -/
def EnhancedMemoryStore.dump (s : EnhancedMemoryStore) : StoreDump where
  npc_id := s.npc_id
  combat_events := s.combat_events.map CombatEvent.dump
  social_events := s.social_events.map SocialEvent.dump
  environmental_events := s.environmental_events.map EnvironmentalEvent.dump
  relationships := s.relationships
  current_threat := s.current_threat
  current_ally := s.current_ally
  current_goal := s.current_goal
  total_interactions := s.total_interactions
  total_combat_events := s.total_combat_events
  creation_time := s.creation_time

/-- `EnhancedMemoryStore(**memory_data)`: rebuild each nested model,
failing if any nested validation fails. -/
def StoreDump.parse (d : StoreDump) : Option EnhancedMemoryStore :=
  match optionMapList CombatEventDump.parse d.combat_events with
  | none => none
  | some ce =>
    match optionMapList SocialEventDump.parse d.social_events with
    | none => none
    | some se =>
      match optionMapList EnvironmentalEventDump.parse d.environmental_events with
      | none => none
      | some ee =>
        match optionMapList
            (fun p => (Relationship.revalidate p.2).map (fun r => (p.1, r)))
            d.relationships with
        | none => none
        | some rels =>
            some { npc_id := d.npc_id, combat_events := ce,
                   social_events := se, environmental_events := ee,
                   relationships := rels, current_threat := d.current_threat,
                   current_ally := d.current_ally,
                   current_goal := d.current_goal,
                   total_interactions := d.total_interactions,
                   total_combat_events := d.total_combat_events,
                   creation_time := d.creation_time }

/-! ## Store manager (src/app.py) -/

/-- Process-level state: the in-memory `NPC_MEMORIES` dict plus the
persisted file content (`none` when `ENHANCED_MEMORY_FILE` does not
exist). -/
structure AppState where
  npc_memories : List (String × EnhancedMemoryStore)
  disk : Option (List (String × StoreDump))
deriving Repr

/-- `save_enhanced_memory`: write-through of every in-memory store, keyed
by agent id. -/
def save_enhanced_memory (st : AppState) : AppState :=
  { st with
    disk := some (st.npc_memories.map (fun p => (p.1, p.2.dump))) }

/-- `load_enhanced_memory`: return the in-memory store if present; else try
the persisted collection (a failed reconstruction is swallowed by the
`except` and treated as absent); else create a fresh default store, cache
it and persist immediately. Returns the resolved store and the resulting
process state. -/
def load_enhanced_memory (st : AppState) (npc_id now : String) :
    EnhancedMemoryStore × AppState :=
  match dictLookup st.npc_memories npc_id with
  | some m => (m, st)
  | none =>
    let fresh :=
      let m := EnhancedMemoryStore.new npc_id now
      (m, save_enhanced_memory
            { st with npc_memories := dictSet st.npc_memories npc_id m })
    match st.disk with
    | none => fresh
    | some all =>
      match dictLookup all npc_id with
      | none => fresh
      | some d =>
        match d.parse with
        | none => fresh
        | some m =>
            (m, { st with npc_memories := dictSet st.npc_memories npc_id m })

/-- `delete_npc_memory`: drop the in-memory entry if present and persist
the removal; report whether an in-memory entry existed. -/
def delete_npc_memory (st : AppState) (npc_id : String) : AppState × Bool :=
  match dictLookup st.npc_memories npc_id with
  | some _ =>
      (save_enhanced_memory
        { st with npc_memories := dictRemove st.npc_memories npc_id }, true)
  | none => (st, false)

/-- The combat branch of `record_event`: resolve the agent's store, build
`CombatEvent(**event_data)` (an invalid payload raises, is caught, and the
handler returns an error without reaching the mutation), else apply
`add_combat_event` and persist. Returns the resulting state and whether
the event was recorded. -/
def record_event_combat (st : AppState) (npc_id : String)
    (payload : RawCombatPayload) (now : String) : AppState × Bool :=
  let (memory, st₁) := load_enhanced_memory st npc_id now
  match payload.validate with
  | none => (st₁, false)
  | some e =>
      let memory := memory.add_combat_event e now
      let st₂ := { st₁ with
        npc_memories := dictSet st₁.npc_memories npc_id memory }
      (save_enhanced_memory st₂, true)


/-- Does this recorded event count as an `attacked_by` combat event from
counterpart `name`? -/
def isAttackedByFrom (g : GameEvent) (name : String) : Bool :=
  match g with
  | GameEvent.combat e =>
      decide (e.event_type = CombatKind.attacked_by ∧ e.entity_name = name)
  | GameEvent.social _ => false
  | GameEvent.environmental _ => false

/-- Number of `attacked_by` events from `name` in a recorded sequence. -/
def countAttackedBy (l : List (GameEvent × String)) (name : String) : Nat :=
  l.countP (fun p => isAttackedByFrom p.1 name)

/-- The `times_attacked_by` counter currently stored for `name` (0 when no
ledger exists). -/
def relTimesAttackedBy (s : EnhancedMemoryStore) (name : String) : Nat :=
  match dictLookup s.relationships name with
  | none => 0
  | some r => r.times_attacked_by

/-! ## Score-bound invariant -/

/-- The three bounded scores of a ledger are inside their declared ranges. -/
def Relationship.scoresInBounds (r : Relationship) : Prop :=
  -100 ≤ r.trust ∧ r.trust ≤ 100 ∧ 0 ≤ r.fear ∧ r.fear ≤ 100 ∧
    0 ≤ r.affection ∧ r.affection ≤ 100

instance (r : Relationship) : Decidable r.scoresInBounds := by
  unfold Relationship.scoresInBounds
  infer_instance

/-- Every ledger held by a store has its scores inside bounds. -/
def EnhancedMemoryStore.scoresInBounds (s : EnhancedMemoryStore) : Prop :=
  ∀ p ∈ s.relationships, Relationship.scoresInBounds p.2

instance (s : EnhancedMemoryStore) : Decidable s.scoresInBounds := by
  unfold EnhancedMemoryStore.scoresInBounds
  infer_instance


/-! ## Concrete inputs used to exercise the theorems -/

/-- An `attacked_by` combat event from the player "Steve". -/
def steveAttack (dmg : Rat) (ts : String) : CombatEvent where
  event_type := CombatKind.attacked_by
  entity_name := "Steve"
  entity_type := "player"
  damage := some dmg
  weapon := some "stone_sword"
  location := none
  timestamp := ts

/-- A `gift_received` social event from "Steve". -/
def steveGift (ts : String) : SocialEvent where
  event_type := SocialKind.gift_received
  entity_name := "Steve"
  message := none
  item := some "diamond"
  timestamp := ts

/-- A `chat` social event from "Steve". -/
def steveChat (ts : String) : SocialEvent where
  event_type := SocialKind.chat
  entity_name := "Steve"
  message := some "hello"
  item := none
  timestamp := ts

/-- A `witnessed_death` combat event naming a mob counterpart. -/
def zombieDeath (ts : String) : CombatEvent where
  event_type := CombatKind.witnessed_death
  entity_name := "Zombie"
  entity_type := "mob"
  damage := none
  weapon := none
  location := none
  timestamp := ts

/-- A ledger for "Steve" with a chosen attack count and trust level. -/
def steveLedger (tab : Nat) (trust : Int) : Relationship :=
  { Relationship.new "Steve" "player" "t0" with
    times_attacked_by := tab, trust := trust }

/-- A store holding exactly the ledger `steveLedger tab trust`. -/
def demoStore (tab : Nat) (trust : Int) : EnhancedMemoryStore :=
  { EnhancedMemoryStore.new "npc" "t0" with
    relationships := [("Steve", steveLedger tab trust)] }

/-- Three attacks from "Steve" followed by nine gifts: enough for the trust
score to recover well above the -40 floor (it ends at 45). -/
def attacksThenGifts : List (GameEvent × String) :=
  [(GameEvent.combat (steveAttack 3 "t1"), "t1"),
   (GameEvent.combat (steveAttack 4 "t2"), "t2"),
   (GameEvent.combat (steveAttack 5 "t3"), "t3")] ++
    List.replicate 9 (GameEvent.social (steveGift "t4"), "t4")

/-- The store after `attacksThenGifts`. -/
def recoveredStore : EnhancedMemoryStore :=
  applyEvents (EnhancedMemoryStore.new "npc" "t0") attacksThenGifts

/-- The store after a 4th attack lands on `recoveredStore`. -/
def fourthAttackStore : EnhancedMemoryStore :=
  recoveredStore.add_combat_event (steveAttack 2 "t5") "t5"

/-- Process state holding one freshly created agent. -/
def oneNpcState : AppState where
  npc_memories := [("npc1", EnhancedMemoryStore.new "npc1" "t0")]
  disk := none

/-- A combat payload carrying a negative damage value; its `event_type` is
a valid literal, so validation accepts it. -/
def negativeDamagePayload : RawCombatPayload where
  event_type := "attacked_by"
  entity_name := "Steve"
  entity_type := "player"
  damage := some (-5)
  weapon := none
  location := none
  timestamp := "t1"

/-- A combat payload whose `event_type` is not one of the declared
literals. -/
def unknownKindPayload : RawCombatPayload where
  event_type := "exploded"
  entity_name := "Steve"
  entity_type := "player"
  damage := some 3
  weapon := none
  location := none
  timestamp := "t1"

/-! ## Basic lemmas about the dictionary and slicing models -/

theorem dictLookup_dictSet_self {β : Type} (d : List (String × β)) (k : String)
    (v : β) : dictLookup (dictSet d k v) k = some v := by
  induction d with
  | nil => simp [dictSet, dictLookup]
  | cons hd tl ih =>
      obtain ⟨k', v'⟩ := hd
      by_cases hk : k' = k
      · simp [dictSet, dictLookup, hk]
      · simp [dictSet, dictLookup, hk, ih]

theorem dictLookup_dictSet_ne {β : Type} (d : List (String × β)) (k k' : String)
    (v : β) (h : k ≠ k') :
    dictLookup (dictSet d k v) k' = dictLookup d k' := by
  induction d with
  | nil => simp [dictSet, dictLookup, h]
  | cons hd tl ih =>
      obtain ⟨k₀, v₀⟩ := hd
      by_cases hk : k₀ = k
      · subst hk
        simp [dictSet, dictLookup, h]
      · simp [dictSet, dictLookup, hk, ih]

theorem mem_dictSet {β : Type} {d : List (String × β)} {k : String} {v : β}
    {p : String × β} (hp : p ∈ dictSet d k v) : p = (k, v) ∨ p ∈ d := by
  induction d with
  | nil =>
      simp [dictSet] at hp
      exact Or.inl hp
  | cons hd tl ih =>
      obtain ⟨k₀, v₀⟩ := hd
      by_cases hk : k₀ = k
      · simp [dictSet, hk] at hp
        rcases hp with h | h
        · exact Or.inl (by simp [h])
        · exact Or.inr (List.mem_cons_of_mem _ h)
      · simp [dictSet, hk] at hp
        rcases hp with h | h
        · exact Or.inr (by simp [h])
        · rcases ih h with h' | h'
          · exact Or.inl h'
          · exact Or.inr (List.mem_cons_of_mem _ h')

theorem dictLookup_dictRemove_self {β : Type} (d : List (String × β))
    (k : String) : dictLookup (dictRemove d k) k = none := by
  induction d with
  | nil => simp [dictRemove, dictLookup]
  | cons hd tl ih =>
      obtain ⟨k₀, v₀⟩ := hd
      by_cases hk : k₀ = k
      · simp [dictRemove, hk, ih]
      · simp [dictRemove, dictLookup, hk, ih]

theorem dictLookup_map {β γ : Type} (d : List (String × β)) (f : β → γ)
    (k : String) :
    dictLookup (d.map (fun p => (p.1, f p.2))) k = (dictLookup d k).map f := by
  induction d with
  | nil => simp [dictLookup]
  | cons hd tl ih =>
      obtain ⟨k₀, v₀⟩ := hd
      by_cases hk : k₀ = k
      · simp [dictLookup, hk]
      · simp [dictLookup, hk, ih]

theorem keepLast50_suffix {α : Type} (l : List α) : keepLast50 l <:+ l :=
  List.drop_suffix _ _

theorem keepLast50_length {α : Type} (l : List α) :
    (keepLast50 l).length = min l.length 50 := by
  simp only [keepLast50, List.length_drop]
  omega

theorem le_clampInt (lo hi x : Int) : lo ≤ clampInt lo hi x :=
  le_max_left _ _

theorem clampInt_le (lo hi x : Int) (h : lo ≤ hi) : clampInt lo hi x ≤ hi :=
  max_le h (min_le_left _ _)

theorem clampInt_le_of_le (lo hi x b : Int) (hlo : lo ≤ b) (hx : x ≤ b) :
    clampInt lo hi x ≤ b :=
  max_le hlo (le_trans (min_le_right _ _) hx)

theorem scoresInBounds_add_combat_event (s : EnhancedMemoryStore)
    (e : CombatEvent) (now : String) (h : s.scoresInBounds) :
    (s.add_combat_event e now).scoresInBounds := by
  intro p hp
  simp only [EnhancedMemoryStore.add_combat_event] at hp
  rcases mem_dictSet hp with hEq | hMem
  · subst hEq
    refine ⟨le_clampInt _ _ _, clampInt_le _ _ _ (by omega),
      le_clampInt _ _ _, clampInt_le _ _ _ (by omega),
      le_clampInt _ _ _, clampInt_le _ _ _ (by omega)⟩
  · exact h p hMem

theorem scoresInBounds_add_social_event (s : EnhancedMemoryStore)
    (e : SocialEvent) (now : String) (h : s.scoresInBounds) :
    (s.add_social_event e now).scoresInBounds := by
  intro p hp
  simp only [EnhancedMemoryStore.add_social_event] at hp
  rcases mem_dictSet hp with hEq | hMem
  · subst hEq
    refine ⟨le_clampInt _ _ _, clampInt_le _ _ _ (by omega),
      le_clampInt _ _ _, clampInt_le _ _ _ (by omega),
      le_clampInt _ _ _, clampInt_le _ _ _ (by omega)⟩
  · exact h p hMem

theorem scoresInBounds_applyEvent (s : EnhancedMemoryStore) (g : GameEvent)
    (now : String) (h : s.scoresInBounds) : (applyEvent s g now).scoresInBounds := by
  cases g with
  | combat e => exact scoresInBounds_add_combat_event s e now h
  | social e => exact scoresInBounds_add_social_event s e now h
  | environmental e => exact h

theorem scoresInBounds_applyEvents (s : EnhancedMemoryStore)
    (l : List (GameEvent × String)) (h : s.scoresInBounds) :
    (applyEvents s l).scoresInBounds := by
  induction l generalizing s with
  | nil => exact h
  | cons hd tl ih =>
      exact ih _ (scoresInBounds_applyEvent s hd.1 hd.2 h)

theorem relTAB_applyEvent (s : EnhancedMemoryStore) (g : GameEvent)
    (now name : String) :
    relTimesAttackedBy (applyEvent s g now) name =
      relTimesAttackedBy s name + (if isAttackedByFrom g name then 1 else 0) := by
  cases g with
  | environmental e =>
      simp [applyEvent, relTimesAttackedBy, isAttackedByFrom]
  | social e =>
      obtain ⟨ket, en, msg, it, ts⟩ := e
      simp only [applyEvent, isAttackedByFrom, if_neg (by simp : ¬(false = true))]
      by_cases hen : en = name
      · subst hen
        simp only [relTimesAttackedBy, EnhancedMemoryStore.add_social_event]
        cases hlk : dictLookup s.relationships en <;>
          · simp only [hlk, dictLookup_dictSet_self]
            cases ket <;> rfl
      · simp only [relTimesAttackedBy, EnhancedMemoryStore.add_social_event]
        cases hlk : dictLookup s.relationships en <;>
          simp [dictLookup_dictSet_ne _ _ _ _ hen]
  | combat e =>
      obtain ⟨ket, en, ent, dmg, w, loc, ts⟩ := e
      by_cases hen : en = name
      · subst hen
        cases ket with
        | attacked_by =>
            simp only [applyEvent, isAttackedByFrom, relTimesAttackedBy,
              EnhancedMemoryStore.add_combat_event]
            cases hlk : dictLookup s.relationships en with
            | none =>
                simp only [hlk, dictLookup_dictSet_self]
                split <;> rfl
            | some r =>
                simp only [hlk, dictLookup_dictSet_self]
                split <;> rfl
        | attacked =>
            simp only [applyEvent, isAttackedByFrom, relTimesAttackedBy,
              EnhancedMemoryStore.add_combat_event]
            cases hlk : dictLookup s.relationships en <;>
              · simp only [hlk, dictLookup_dictSet_self]
                simp [Relationship.new]
        | witnessed_death =>
            simp only [applyEvent, isAttackedByFrom, relTimesAttackedBy,
              EnhancedMemoryStore.add_combat_event]
            cases hlk : dictLookup s.relationships en <;>
              · simp only [hlk, dictLookup_dictSet_self]
                simp [Relationship.new]
      · simp only [applyEvent, isAttackedByFrom, relTimesAttackedBy,
          EnhancedMemoryStore.add_combat_event,
          dictLookup_dictSet_ne _ _ _ _ hen]
        simp [hen]

theorem relTAB_applyEvents (s : EnhancedMemoryStore)
    (l : List (GameEvent × String)) (name : String) :
    relTimesAttackedBy (applyEvents s l) name =
      relTimesAttackedBy s name + countAttackedBy l name := by
  induction l generalizing s with
  | nil => simp [applyEvents, countAttackedBy]
  | cons hd tl ih =>
      simp only [applyEvents, List.foldl_cons, countAttackedBy, List.countP_cons]
      have := ih (applyEvent s hd.1 hd.2)
      simp only [applyEvents, countAttackedBy] at this
      rw [this, relTAB_applyEvent]
      by_cases hb : isAttackedByFrom hd.1 name
      · simp [hb]
        omega
      · simp [hb]

theorem should_be_aggressive_iff (s : EnhancedMemoryStore) (name : String) :
    s.should_be_aggressive name = true ↔
      ∃ rel, dictLookup s.relationships name = some rel ∧
        rel.trust < -30 ∧ rel.fear < 70 ∧ 2 ≤ rel.times_attacked_by := by
  unfold EnhancedMemoryStore.should_be_aggressive
  cases hlk : dictLookup s.relationships name with
  | none => simp
  | some r => simp [hlk, and_assoc]

theorem should_be_aggressive_false_of_few (s : EnhancedMemoryStore)
    (name : String) (h : relTimesAttackedBy s name < 2) :
    s.should_be_aggressive name = false := by
  unfold EnhancedMemoryStore.should_be_aggressive
  cases hlk : dictLookup s.relationships name with
  | none => rfl
  | some r =>
      simp [relTimesAttackedBy, hlk] at h
      simp [hlk]
      omega
theorem combatEvent_parse_dump (e : CombatEvent) : e.dump.parse = some e := by
  obtain ⟨k, en, ent, dmg, w, loc, ts⟩ := e
  cases k <;> rfl

theorem socialEvent_parse_dump (e : SocialEvent) : e.dump.parse = some e := by
  obtain ⟨k, en, msg, it, ts⟩ := e
  cases k <;> rfl

theorem envEvent_parse_dump (e : EnvironmentalEvent) : e.dump.parse = some e := by
  obtain ⟨k, d, loc, ts⟩ := e
  cases k <;> rfl

theorem optionMapList_parse_dump_combat (l : List CombatEvent) :
    optionMapList CombatEventDump.parse (l.map CombatEvent.dump) = some l := by
  induction l with
  | nil => rfl
  | cons hd tl ih =>
      simp [optionMapList, combatEvent_parse_dump, ih]

theorem optionMapList_parse_dump_social (l : List SocialEvent) :
    optionMapList SocialEventDump.parse (l.map SocialEvent.dump) = some l := by
  induction l with
  | nil => rfl
  | cons hd tl ih =>
      simp [optionMapList, socialEvent_parse_dump, ih]

theorem optionMapList_parse_dump_env (l : List EnvironmentalEvent) :
    optionMapList EnvironmentalEventDump.parse
      (l.map EnvironmentalEvent.dump) = some l := by
  induction l with
  | nil => rfl
  | cons hd tl ih =>
      simp [optionMapList, envEvent_parse_dump, ih]

theorem revalidate_of_scoresInBounds (r : Relationship)
    (h : r.scoresInBounds) : r.revalidate = some r := by
  unfold Relationship.revalidate
  exact if_pos h

theorem optionMapList_revalidate (l : List (String × Relationship))
    (h : ∀ p ∈ l, Relationship.scoresInBounds p.2) :
    optionMapList
      (fun p => (Relationship.revalidate p.2).map (fun r => (p.1, r))) l
      = some l := by
  induction l with
  | nil => rfl
  | cons hd tl ih =>
      simp [optionMapList, revalidate_of_scoresInBounds hd.2 (h hd (by simp)),
        ih (fun p hp => h p (List.mem_cons_of_mem _ hp))]

theorem storeDump_parse_dump (m : EnhancedMemoryStore)
    (h : m.scoresInBounds) : m.dump.parse = some m := by
  unfold EnhancedMemoryStore.dump StoreDump.parse
  simp only [optionMapList_parse_dump_combat, optionMapList_parse_dump_social,
    optionMapList_parse_dump_env, optionMapList_revalidate _ h]

theorem load_after_save_roundtrip (st : AppState) (npc_id now : String)
    (m : EnhancedMemoryStore)
    (hm : dictLookup st.npc_memories npc_id = some m)
    (hb : m.scoresInBounds) :
    (load_enhanced_memory
        { npc_memories := [], disk := (save_enhanced_memory st).disk }
        npc_id now).1 = m := by
  simp only [load_enhanced_memory, save_enhanced_memory, dictLookup,
    dictLookup_map, hm, Option.map_some', storeDump_parse_dump m hb]

theorem load_after_delete (st : AppState) (npc_id now : String)
    (h : (delete_npc_memory st npc_id).2 = true) :
    (load_enhanced_memory (delete_npc_memory st npc_id).1 npc_id now).1 =
      EnhancedMemoryStore.new npc_id now := by
  unfold delete_npc_memory at h ⊢
  cases hlk : dictLookup st.npc_memories npc_id with
  | none => rw [hlk] at h; simp at h
  | some m =>
      simp only [hlk]
      simp only [load_enhanced_memory, save_enhanced_memory,
        dictLookup_dictRemove_self, dictLookup_map, Option.map_none']

theorem logs_le_50_applyEvent (s : EnhancedMemoryStore) (g : GameEvent)
    (now : String)
    (h : s.combat_events.length ≤ 50 ∧ s.social_events.length ≤ 50 ∧
      s.environmental_events.length ≤ 50) :
    (applyEvent s g now).combat_events.length ≤ 50 ∧
      (applyEvent s g now).social_events.length ≤ 50 ∧
      (applyEvent s g now).environmental_events.length ≤ 50 := by
  obtain ⟨h1, h2, h3⟩ := h
  cases g with
  | combat e =>
      refine ⟨?_, ?_, ?_⟩ <;>
        simp only [applyEvent, EnhancedMemoryStore.add_combat_event,
          keepLast50_length] <;> omega
  | social e =>
      refine ⟨?_, ?_, ?_⟩ <;>
        simp only [applyEvent, EnhancedMemoryStore.add_social_event,
          keepLast50_length] <;> omega
  | environmental e =>
      refine ⟨?_, ?_, ?_⟩ <;>
        simp only [applyEvent, keepLast50_length] <;> omega

theorem logs_le_50_applyEvents (s : EnhancedMemoryStore)
    (l : List (GameEvent × String))
    (h : s.combat_events.length ≤ 50 ∧ s.social_events.length ≤ 50 ∧
      s.environmental_events.length ≤ 50) :
    (applyEvents s l).combat_events.length ≤ 50 ∧
      (applyEvents s l).social_events.length ≤ 50 ∧
      (applyEvents s l).environmental_events.length ≤ 50 := by
  induction l generalizing s with
  | nil => exact h
  | cons hd tl ih => exact ih _ (logs_le_50_applyEvent s hd.1 hd.2 h)
/-- C1: for every sequence of recorded combat, social and environmental
events starting from a fresh store, every relationship ledger's scores
satisfy trust ∈ [-100,100], fear ∈ [0,100] and affection ∈ [0,100] after
every operation. -/
theorem c1_scores_always_in_bounds (npc_id ct : String)
    (events : List (GameEvent × String)) :
    (applyEvents (EnhancedMemoryStore.new npc_id ct) events).scoresInBounds :=
  scoresInBounds_applyEvents _ _ (by
    intro p hp
    simp [EnhancedMemoryStore.new] at hp)

/-- C2: recording the 3rd `attacked_by` event from a counterpart (the
ledger's counter was 2 before the event) forces the ledger's trust to
≤ -40, whatever trust was before, and sets the store's `current_threat` to
that counterpart's name. -/
theorem c2_third_attack_forces_floor_and_threat (s : EnhancedMemoryStore)
    (e : CombatEvent) (now : String) (rel : Relationship)
    (hk : e.event_type = CombatKind.attacked_by)
    (hrel : dictLookup s.relationships e.entity_name = some rel)
    (htab : rel.times_attacked_by = 2) :
    ∃ rel', dictLookup (s.add_combat_event e now).relationships e.entity_name
        = some rel' ∧ rel'.trust ≤ -40 ∧
      (s.add_combat_event e now).current_threat = some e.entity_name := by
  obtain ⟨ket, en, ent, dmg, w, loc, ts⟩ := e
  simp only at hk hrel ⊢
  subst hk
  simp only [EnhancedMemoryStore.add_combat_event, hrel, htab]
  refine ⟨_, dictLookup_dictSet_self _ _ _, ?_, ?_⟩
  · exact clampInt_le_of_le _ _ _ _ (by omega) (min_le_right _ _)
  · trivial

/-- C2 witness: a concrete ledger with two prior attacks and trust 10; the
3rd attack forces trust ≤ -40 and sets current_threat. -/
theorem c2_witness :
    ∃ rel', dictLookup
        ((demoStore 2 10).add_combat_event (steveAttack 4 "t1") "t1").relationships
        "Steve" = some rel' ∧ rel'.trust ≤ -40 ∧
      ((demoStore 2 10).add_combat_event (steveAttack 4 "t1") "t1").current_threat
        = some "Steve" :=
  c2_third_attack_forces_floor_and_threat (demoStore 2 10) (steveAttack 4 "t1")
    "t1" (steveLedger 2 10) (by decide) (by decide) (by decide)

set_option maxRecDepth 4000 in
/-- C3 counterexample: the claim "on attacked_by events beyond the 3rd the
-40 trust floor is not re-applied" is false on the code.  After 3 attacks
and 9 gifts from "Steve", the ledger has times_attacked_by = 3 and trust
recovered to 45; a 4th attack then leaves trust = -40 — the floor was
re-applied (the regular deltas alone would have left 45 - 15 = 30, which
is not ≤ -40) — and re-sets current_threat. -/
theorem c3_counterexample :
    (dictLookup recoveredStore.relationships "Steve").map
        Relationship.times_attacked_by = some 3 ∧
    (dictLookup recoveredStore.relationships "Steve").map
        Relationship.trust = some 45 ∧
    (dictLookup fourthAttackStore.relationships "Steve").map
        Relationship.trust = some (-40) ∧
    fourthAttackStore.current_threat = some "Steve" ∧
    ((45 : Int) - 15 = 30 ∧ ¬((30 : Int) ≤ -40) ∧ ((-40 : Int) ≤ -40)) := by
  decide

/-- C3 (amended): on every `attacked_by` event from a counterpart whose
counter is already ≥ 2 (so times_attacked_by ≥ 3 after the increment) — the
3rd attack and every later one — the code re-applies the -40 floor: trust
is forced to ≤ -40 even if it had recovered above -40, and current_threat
is re-set to that counterpart. -/
theorem c3_floor_reapplied_on_later_attacks (s : EnhancedMemoryStore)
    (e : CombatEvent) (now : String) (rel : Relationship)
    (hk : e.event_type = CombatKind.attacked_by)
    (hrel : dictLookup s.relationships e.entity_name = some rel)
    (htab : 2 ≤ rel.times_attacked_by) :
    ∃ rel', dictLookup (s.add_combat_event e now).relationships e.entity_name
        = some rel' ∧ rel'.trust ≤ -40 ∧
      (s.add_combat_event e now).current_threat = some e.entity_name := by
  obtain ⟨ket, en, ent, dmg, w, loc, ts⟩ := e
  simp only at hk hrel ⊢
  subst hk
  have hge : rel.times_attacked_by + 1 ≥ 3 := by omega
  simp only [EnhancedMemoryStore.add_combat_event, hrel, if_pos hge]
  refine ⟨_, dictLookup_dictSet_self _ _ _, ?_, ?_⟩
  · exact clampInt_le_of_le _ _ _ _ (by omega) (min_le_right _ _)
  · trivial

/-- C3 witness: a ledger with 7 prior attacks and trust recovered to 50;
an 8th attack forces trust back below -40. -/
theorem c3_witness :
    ∃ rel', dictLookup
        ((demoStore 7 50).add_combat_event (steveAttack 4 "t1") "t1").relationships
        "Steve" = some rel' ∧ rel'.trust ≤ -40 ∧
      ((demoStore 7 50).add_combat_event (steveAttack 4 "t1") "t1").current_threat
        = some "Steve" :=
  c3_floor_reapplied_on_later_attacks (demoStore 7 50) (steveAttack 4 "t1")
    "t1" (steveLedger 7 50) (by decide) (by decide) (by decide)

/-- C4: each of the three per-agent event logs never exceeds 50 entries
over any event sequence from a fresh store; and each append keeps a suffix
of the appended sequence of length min(old+1, 50) — the oldest entries are
the evicted ones and the FIFO order of the remainder is preserved. -/
theorem c4_logs_capacity_and_fifo :
    (∀ (npc_id ct : String) (events : List (GameEvent × String)),
      (applyEvents (EnhancedMemoryStore.new npc_id ct) events).combat_events.length ≤ 50 ∧
      (applyEvents (EnhancedMemoryStore.new npc_id ct) events).social_events.length ≤ 50 ∧
      (applyEvents (EnhancedMemoryStore.new npc_id ct) events).environmental_events.length ≤ 50) ∧
    (∀ (s : EnhancedMemoryStore) (e : CombatEvent) (now : String),
      (s.add_combat_event e now).combat_events <:+ s.combat_events ++ [e] ∧
      (s.add_combat_event e now).combat_events.length
        = min (s.combat_events.length + 1) 50) ∧
    (∀ (s : EnhancedMemoryStore) (e : SocialEvent) (now : String),
      (s.add_social_event e now).social_events <:+ s.social_events ++ [e] ∧
      (s.add_social_event e now).social_events.length
        = min (s.social_events.length + 1) 50) ∧
    (∀ (s : EnhancedMemoryStore) (e : EnvironmentalEvent) (now : String),
      (applyEvent s (GameEvent.environmental e) now).environmental_events
          <:+ s.environmental_events ++ [e] ∧
      (applyEvent s (GameEvent.environmental e) now).environmental_events.length
        = min (s.environmental_events.length + 1) 50) := by
  refine ⟨?_, ?_, ?_, ?_⟩
  · intro npc_id ct events
    exact logs_le_50_applyEvents _ _ (by simp [EnhancedMemoryStore.new])
  · intro s e now
    refine ⟨keepLast50_suffix _, ?_⟩
    have := keepLast50_length (s.combat_events ++ [e])
    simpa using this
  · intro s e now
    refine ⟨keepLast50_suffix _, ?_⟩
    have := keepLast50_length (s.social_events ++ [e])
    simpa using this
  · intro s e now
    refine ⟨keepLast50_suffix _, ?_⟩
    have := keepLast50_length (s.environmental_events ++ [e])
    simpa using this

/-- C5: should_be_aggressive(store, counterpart) is true iff a ledger for
that counterpart exists with trust < -30, fear < 70 and
times_attacked_by ≥ 2; and over every event sequence from a fresh store it
is false whenever fewer than 2 attacked_by events from that counterpart
have been recorded, whatever the other scores. -/
theorem c5_should_be_aggressive_characterization :
    (∀ (s : EnhancedMemoryStore) (name : String),
      s.should_be_aggressive name = true ↔
        ∃ rel, dictLookup s.relationships name = some rel ∧
          rel.trust < -30 ∧ rel.fear < 70 ∧ 2 ≤ rel.times_attacked_by) ∧
    (∀ (npc_id ct : String) (events : List (GameEvent × String)) (name : String),
      countAttackedBy events name < 2 →
      (applyEvents (EnhancedMemoryStore.new npc_id ct) events).should_be_aggressive
        name = false) := by
  refine ⟨should_be_aggressive_iff, ?_⟩
  intro npc_id ct events name h
  apply should_be_aggressive_false_of_few
  rw [relTAB_applyEvents]
  have h0 : relTimesAttackedBy (EnhancedMemoryStore.new npc_id ct) name = 0 := rfl
  omega

/-- C5 witness: true on a ledger with 2 attacks, trust -40, fear 0; false
on a store that has recorded a single attacked_by event. -/
theorem c5_witness :
    ((demoStore 2 (-40)).should_be_aggressive "Steve" = true) ∧
    ((applyEvents (EnhancedMemoryStore.new "npc" "t0")
        [(GameEvent.combat (steveAttack 3 "t1"), "t1")]).should_be_aggressive
      "Steve" = false) :=
  ⟨(c5_should_be_aggressive_characterization.1 (demoStore 2 (-40)) "Steve").mpr
      ⟨steveLedger 2 (-40), by decide, by decide, by decide, by decide⟩,
    c5_should_be_aggressive_characterization.2 "npc" "t0"
      [(GameEvent.combat (steveAttack 3 "t1"), "t1")] "Steve" (by decide)⟩

/-- C6 counterexample: the claim "a negative damage value is rejected with
a validation error before any mutation" is false on the code.  A combat
payload with damage = -5 (a valid `attacked_by` kind) is accepted
(the call reports success), and the agent's store is mutated: a ledger for
"Steve" now exists with total_damage_received = -5, while before the call
no ledger existed.  `CombatEvent.damage` carries no `ge=0` constraint. -/
theorem c6_counterexample :
    ((-5 : Rat) < 0 ∧ negativeDamagePayload.damage = some (-5)) ∧
    (record_event_combat oneNpcState "npc1" negativeDamagePayload "t1").2 = true ∧
    ((dictLookup (record_event_combat oneNpcState "npc1" negativeDamagePayload
          "t1").1.npc_memories "npc1").map
        (fun m => (dictLookup m.relationships "Steve").map
          Relationship.total_damage_received)) = some (some (-5)) ∧
    ((dictLookup oneNpcState.npc_memories "npc1").map
        (fun m => dictLookup m.relationships "Steve")) = some none := by
  refine ⟨⟨by norm_num, rfl⟩, rfl, ?_, rfl⟩
  simp [record_event_combat, load_enhanced_memory, oneNpcState,
    negativeDamagePayload, RawCombatPayload.validate, combatKindOfString,
    EnhancedMemoryStore.add_combat_event, EnhancedMemoryStore.new,
    Relationship.new, dictLookup, dictSet, save_enhanced_memory, keepLast50]

/-- C6 (amended): an ingestion call whose combat payload has an unknown
event kind is rejected by validation before any mutation, and the agent's
existing MemoryStore (and the whole process state) is left exactly as it
was; negative damage values, however, are not validated. -/
theorem c6_unknown_kind_rejected_without_mutation (st : AppState)
    (npc_id : String) (p : RawCombatPayload) (now : String)
    (m : EnhancedMemoryStore)
    (hm : dictLookup st.npc_memories npc_id = some m)
    (hk : combatKindOfString p.event_type = none) :
    record_event_combat st npc_id p now = (st, false) := by
  simp only [record_event_combat, load_enhanced_memory, hm,
    RawCombatPayload.validate, hk]

/-- C6 witness: a payload with event kind "exploded" against an existing
agent is rejected and leaves the state unchanged. -/
theorem c6_witness :
    record_event_combat oneNpcState "npc1" unknownKindPayload "t1"
      = (oneNpcState, false) :=
  c6_unknown_kind_rejected_without_mutation oneNpcState "npc1"
    unknownKindPayload "t1" (EnhancedMemoryStore.new "npc1" "t0")
    (by decide) (by decide)

/-- C7: persisting the collection and reloading it in a fresh process
reproduces an identical MemoryStore for every stored agent — all counters,
the three event logs, the relationship ledgers and the scalar fields
(current_threat, current_ally, current_goal, creation_time) are unchanged
by the round-trip.  The ledger-bounds hypothesis is the pydantic `ge`/`le`
revalidation performed on load; every reachable store satisfies it. -/
theorem c7_persist_reload_roundtrip (st : AppState) (npc_id now : String)
    (m : EnhancedMemoryStore)
    (hm : dictLookup st.npc_memories npc_id = some m)
    (hb : m.scoresInBounds) :
    (load_enhanced_memory
        { npc_memories := [], disk := (save_enhanced_memory st).disk }
        npc_id now).1 = m := by
  simp only [load_enhanced_memory, save_enhanced_memory, dictLookup,
    dictLookup_map, hm, Option.map_some', storeDump_parse_dump m hb]

/-- C7 witness: a concrete one-agent collection survives the save/reload
round-trip unchanged. -/
theorem c7_witness :
    (load_enhanced_memory
        { npc_memories := [],
          disk := (save_enhanced_memory
            { npc_memories := [("npc", demoStore 2 10)], disk := none }).disk }
        "npc" "t9").1 = demoStore 2 10 :=
  c7_persist_reload_roundtrip
    { npc_memories := [("npc", demoStore 2 10)], disk := none }
    "npc" "t9" (demoStore 2 10) (by decide) (by decide)

/-- C8: delete(agentId) returns whether an in-memory entry existed for
that identifier, and after a deletion, resolving the same identifier
behaves as first-ever creation: it yields the fresh default store, which
has total_interactions = 0, empty event logs, and no relationship
ledgers. -/
theorem c8_delete_then_resolve_fresh (st : AppState) (npc_id now : String) :
    ((delete_npc_memory st npc_id).2
      = (dictLookup st.npc_memories npc_id).isSome) ∧
    ((delete_npc_memory st npc_id).2 = true →
      (load_enhanced_memory (delete_npc_memory st npc_id).1 npc_id now).1
          = EnhancedMemoryStore.new npc_id now ∧
      (EnhancedMemoryStore.new npc_id now).total_interactions = 0 ∧
      (EnhancedMemoryStore.new npc_id now).combat_events = [] ∧
      (EnhancedMemoryStore.new npc_id now).social_events = [] ∧
      (EnhancedMemoryStore.new npc_id now).environmental_events = [] ∧
      (EnhancedMemoryStore.new npc_id now).relationships = []) := by
  constructor
  · unfold delete_npc_memory
    cases hlk : dictLookup st.npc_memories npc_id <;> simp [hlk]
  · intro h
    exact ⟨load_after_delete st npc_id now h, rfl, rfl, rfl, rfl, rfl⟩

/-- C8 witness: deleting the one stored agent reports that it existed and
resolving it afterwards yields the fresh default store. -/
theorem c8_witness :
    ((delete_npc_memory oneNpcState "npc1").2
      = (dictLookup oneNpcState.npc_memories "npc1").isSome) ∧
    (load_enhanced_memory (delete_npc_memory oneNpcState "npc1").1 "npc1"
        "t9").1 = EnhancedMemoryStore.new "npc1" "t9" :=
  ⟨(c8_delete_then_resolve_fresh oneNpcState "npc1" "t9").1,
    ((c8_delete_then_resolve_fresh oneNpcState "npc1" "t9").2 (by decide)).1⟩

/-- C9: a ledger first created by a social event gets entity_type fixed to
the string "player" regardless of the counterpart's actual kind, whereas a
ledger first created by a combat event takes the event's entity_type. -/
theorem c9_ledger_creation_entity_type :
    (∀ (s : EnhancedMemoryStore) (e : SocialEvent) (now : String),
      dictLookup s.relationships e.entity_name = none →
      ∃ rel', dictLookup (s.add_social_event e now).relationships e.entity_name
          = some rel' ∧ rel'.entity_type = "player") ∧
    (∀ (s : EnhancedMemoryStore) (e : CombatEvent) (now : String),
      dictLookup s.relationships e.entity_name = none →
      ∃ rel', dictLookup (s.add_combat_event e now).relationships e.entity_name
          = some rel' ∧ rel'.entity_type = e.entity_type) := by
  constructor
  · intro s e now h
    obtain ⟨ket, en, msg, it, ts⟩ := e
    simp only at h ⊢
    simp only [EnhancedMemoryStore.add_social_event, h]
    refine ⟨_, dictLookup_dictSet_self _ _ _, ?_⟩
    cases ket <;> rfl
  · intro s e now h
    obtain ⟨ket, en, ent, dmg, w, loc, ts⟩ := e
    simp only at h ⊢
    simp only [EnhancedMemoryStore.add_combat_event, h]
    refine ⟨_, dictLookup_dictSet_self _ _ _, ?_⟩
    cases ket
    · by_cases h3 : (0 : Nat) + 1 ≥ 3
      · simp [if_pos h3]
        rfl
      · simp [if_neg h3]
        rfl
    · rfl
    · rfl

/-- C9 witness: a chat from "Steve" creates a "player" ledger; a
witnessed_death naming the mob "Zombie" creates a "mob" ledger. -/
theorem c9_witness :
    (∃ rel', dictLookup ((EnhancedMemoryStore.new "npc" "t0").add_social_event
          (steveChat "t1") "t1").relationships "Steve" = some rel' ∧
        rel'.entity_type = "player") ∧
    (∃ rel', dictLookup ((EnhancedMemoryStore.new "npc" "t0").add_combat_event
          (zombieDeath "t1") "t1").relationships "Zombie" = some rel' ∧
        rel'.entity_type = "mob") :=
  ⟨c9_ledger_creation_entity_type.1 (EnhancedMemoryStore.new "npc" "t0")
      (steveChat "t1") "t1" (by decide),
    c9_ledger_creation_entity_type.2 (EnhancedMemoryStore.new "npc" "t0")
      (zombieDeath "t1") "t1" (by decide)⟩

/-- C10: every recorded social event — chat and ignored included —
increments total_interactions by exactly 1 and creates a ledger for its
counterpart when none exists, so a subsequent relationship query returns a
ledger rather than the explicit "unknown" result; for the score-neutral
kinds (chat, ignored) the returned ledger is exactly the zero-valued fresh
one. -/
theorem c10_social_event_counts_and_ledger :
    (∀ (s : EnhancedMemoryStore) (e : SocialEvent) (now : String),
      (s.add_social_event e now).total_interactions = s.total_interactions + 1) ∧
    (∀ (s : EnhancedMemoryStore) (e : SocialEvent) (now : String),
      dictLookup s.relationships e.entity_name = none →
      get_relationship (s.add_social_event e now) e.entity_name
        ≠ RelQueryResult.unknown) ∧
    (∀ (s : EnhancedMemoryStore) (e : SocialEvent) (now : String),
      dictLookup s.relationships e.entity_name = none →
      (e.event_type = SocialKind.chat ∨ e.event_type = SocialKind.ignored) →
      get_relationship (s.add_social_event e now) e.entity_name
        = RelQueryResult.known (Relationship.new e.entity_name "player" now)) := by
  refine ⟨?_, ?_, ?_⟩
  · intro s e now
    simp only [EnhancedMemoryStore.add_social_event]
  · intro s e now h
    obtain ⟨ket, en, msg, it, ts⟩ := e
    simp only at h ⊢
    simp only [get_relationship, EnhancedMemoryStore.add_social_event, h,
      dictLookup_dictSet_self]
    simp
  · intro s e now h hk
    obtain ⟨ket, en, msg, it, ts⟩ := e
    simp only at h hk ⊢
    simp only [get_relationship, EnhancedMemoryStore.add_social_event, h,
      dictLookup_dictSet_self]
    rcases hk with hk | hk <;> subst hk <;> rfl

/-- C10 witness: a first chat from "Steve" bumps total_interactions to 1
and makes the relationship query return the zero-valued ledger. -/
theorem c10_witness :
    ((EnhancedMemoryStore.new "npc" "t0").add_social_event (steveChat "t1")
        "t1").total_interactions
      = (EnhancedMemoryStore.new "npc" "t0").total_interactions + 1 ∧
    get_relationship ((EnhancedMemoryStore.new "npc" "t0").add_social_event
        (steveChat "t1") "t1") "Steve" ≠ RelQueryResult.unknown ∧
    get_relationship ((EnhancedMemoryStore.new "npc" "t0").add_social_event
        (steveChat "t1") "t1") "Steve"
      = RelQueryResult.known (Relationship.new "Steve" "player" "t1") :=
  ⟨c10_social_event_counts_and_ledger.1 (EnhancedMemoryStore.new "npc" "t0")
      (steveChat "t1") "t1",
    c10_social_event_counts_and_ledger.2.1 (EnhancedMemoryStore.new "npc" "t0")
      (steveChat "t1") "t1" (by decide),
    c10_social_event_counts_and_ledger.2.2 (EnhancedMemoryStore.new "npc" "t0")
      (steveChat "t1") "t1" (by decide) (Or.inl rfl)⟩

